import Mathlib

/-!
Verification development for the gVisor sentry task-blocking core
(pkg/sentry/kernel/task_block.go) and the PID-namespace data model
(pkg/sentry/kernel/threads.go).

The Go code is shallowly embedded: each task's channel and accounting state
becomes an explicit `TaskState` record, and the blocking entry points become
pure state-passing functions.  Go's `select` nondeterminism is resolved by an
explicit `WakeCause` parameter together with a decidable validity predicate
`wakeValid` stating that the chosen arm had a value to receive.  Values that
are posted concurrently while the task sleeps are passed in explicitly
(`arriveC`, `intrArrives`, `timerFires`).  Channels of type `chan struct{}`
are modelled by their occupancy: the event channel by a `Nat` count, the
single-slot interrupt and timer channels by `Bool`s.  Durations and clock
readings are `Int` nanoseconds.
-/

/-- Goroutine-state classification used for task accounting
(running, blocked-interruptible, blocked-uninterruptible, ...). -/
inductive TaskGoroutineState where
  | nonexistent
  | runningSys
  | runningApp
  | blockedInterruptible
  | blockedUninterruptible
  deriving DecidableEq, Repr

/-- Result of a block call: `none` embeds Go's nil error. -/
inductive BlockError where
  | interrupted
  | timedOut
  deriving DecidableEq, Repr

/-- Go's `error` return of the block family: nil, ErrInterrupted or ETIMEDOUT. -/
abbrev BlockRes := Option BlockError

/-- Observable state of one task, as used by task_block.go.

* `eventChan`: number of pending values in the caller-supplied channel C;
* `interruptPending`: occupancy of the single-slot `t.interruptChan`;
* `timerEnabled`: whether `t.blockingTimer` is armed and has not yet fired;
* `timerFired`: occupancy of the single-slot `t.blockingTimerChan`;
* `addrSpaceActive`: address-space activation (`Activate`/`Deactivate`);
* `gostate`: goroutine-state accounting classification;
* `consumedC`: trace counter of values received from C;
* `goschedCount`: trace counter of `runtime.Gosched` yields;
* `touchGostateCount`: trace counter of watchdog touches (`touchGostateTime`). -/
structure TaskState where
  eventChan : Nat
  interruptPending : Bool
  timerEnabled : Bool
  timerFired : Bool
  addrSpaceActive : Bool
  gostate : TaskGoroutineState
  consumedC : Nat
  goschedCount : Nat
  touchGostateCount : Nat
  deriving DecidableEq, Repr

/-- Cause selected by the multi-way `select` in `Task.block`. -/
inductive WakeCause where
  | event
  | interrupt
  | timer
  deriving DecidableEq, Repr

/-- Validity of a wake cause: the corresponding `select` arm must have a value
to receive, given the entry state and the values arriving during the wait.
A timer wake needs a caller-supplied timer channel (`hasTimer`) holding either
a stale value or a fresh expiry of the still-armed timer. -/
def wakeValid (s : TaskState) (hasTimer : Bool) (arriveC : Nat)
    (intrArrives timerFires : Bool) : WakeCause → Bool
  | .event => decide (0 < s.eventChan + arriveC)
  | .interrupt => s.interruptPending || intrArrives
  | .timer => hasTimer && (s.timerFired || (timerFires && s.timerEnabled))

namespace TaskState

/-- Embeds `Task.interrupted`: `len(t.interruptChan) != 0`, without draining. -/
def interrupted (s : TaskState) : Bool :=
  s.interruptPending

/-- Embeds `Task.unsetInterrupted`: non-blocking drain of the interrupt slot. -/
def unsetInterrupted (s : TaskState) : TaskState :=
  { s with interruptPending := false }

/-- Embeds `Task.interruptSelf`: fill the single-slot interrupt channel if it
is empty (a no-op if already full). -/
def interruptSelf (s : TaskState) : TaskState :=
  { s with interruptPending := true }

/-- Embeds `Task.interrupt`: `interruptSelf` plus the platform-side
`t.p.Interrupt()` hook, which has no observable effect on this state. -/
def interrupt (s : TaskState) : TaskState :=
  s.interruptSelf

/-- Embeds `Task.prepareSleep`: deactivate the address space and account the
task as blocked-interruptible.  The platform hook `t.p.PrepareSleep()` has no
observable effect on this state.  `accountTaskGoroutineEnter` is modelled from
the spec: it records the blocked-interruptible classification. -/
def prepareSleep (s : TaskState) : TaskState :=
  { s with addrSpaceActive := false, gostate := .blockedInterruptible }

/-- Embeds `Task.completeSleep`: leave the blocked-interruptible accounting
and reactivate the address space.  `accountTaskGoroutineLeave` is modelled
from the spec: leaving a blocked state restores the running classification. -/
def completeSleep (s : TaskState) : TaskState :=
  { s with gostate := .runningSys, addrSpaceActive := true }

/-- Embeds `Task.block(C, timerChan)`.  Fast path first: if C already holds a
value, consume it and return nil before any state change.  Otherwise
`prepareSleep`, one `runtime.Gosched()` if the timer channel is already
populated, then the three-way select; `completeSleep` runs on every slow-path
exit (the Go `defer`).  Concurrent arrivals during the wait are materialised
before the select.  On an interrupt wake the slot value is consumed and then
re-posted via `interruptSelf`; on a timer wake the timer-channel value is
consumed. -/
def block (s : TaskState) (hasTimer : Bool) (arriveC : Nat)
    (intrArrives timerFires : Bool) (wake : WakeCause) : BlockRes × TaskState :=
  if 0 < s.eventChan then
    (none, { s with eventChan := s.eventChan - 1, consumedC := s.consumedC + 1 })
  else
    let s1 := { s.prepareSleep with
      goschedCount := s.goschedCount + (if hasTimer && s.timerFired then 1 else 0) }
    let s2 := { s1 with
      eventChan := s1.eventChan + arriveC,
      interruptPending := s1.interruptPending || intrArrives,
      timerFired := s1.timerFired || (timerFires && s1.timerEnabled),
      timerEnabled := s1.timerEnabled && !timerFires }
    match wake with
    | .event =>
        (none, TaskState.completeSleep
          { s2 with eventChan := s2.eventChan - 1, consumedC := s2.consumedC + 1 })
    | .interrupt =>
        (some .interrupted, TaskState.completeSleep
          (TaskState.interruptSelf { s2 with interruptPending := false }))
    | .timer =>
        (some .timedOut, TaskState.completeSleep { s2 with timerFired := false })

/-- Embeds `Task.Block(C)`: `t.block(C, nil)`. -/
def Block (s : TaskState) (arriveC : Nat) (intrArrives : Bool)
    (wake : WakeCause) : BlockRes × TaskState :=
  s.block false arriveC intrArrives false wake

/-- Embeds `Task.Interrupted`: returns true when an interrupt is pending;
otherwise touches the watchdog liveness timestamp (`touchGostateTime`,
modelled from the spec as a touch counter) and returns false.  The interrupt
slot is never drained. -/
def Interrupted (s : TaskState) : Bool × TaskState :=
  if s.interrupted then (true, s)
  else (false, { s with touchGostateCount := s.touchGostateCount + 1 })

/-- Embeds `Task.UninterruptibleSleepStart(deactivate)`: optionally deactivate
the address space, then account as blocked-uninterruptible
(`accountTaskGoroutineEnter`, modelled from the spec). -/
def UninterruptibleSleepStart (s : TaskState) (deactivate : Bool) : TaskState :=
  let s1 := if deactivate then { s with addrSpaceActive := false } else s
  { s1 with gostate := .blockedUninterruptible }

/-- Embeds `Task.UninterruptibleSleepFinish(activate)`: leave the
blocked-uninterruptible accounting (`accountTaskGoroutineLeave`, modelled from
the spec as restoring the running classification), then optionally reactivate
the address space. -/
def UninterruptibleSleepFinish (s : TaskState) (activate : Bool) : TaskState :=
  let s1 := { s with gostate := .runningSys }
  if activate then { s1 with addrSpaceActive := true } else s1

end TaskState

/-- Modelled from the spec: `ktime.Timer.Set(ktime.Setting{}, nil)` disarms
the timer and reports, as the returned setting, whether the timer was still
armed (had not yet fired).  The callers in task_block.go then drain the
single-slot expiry channel non-blockingly when the observed setting is not
enabled.  Returns (observed still-armed state, whether a value was actually
drained, resulting state). -/
def timerDisarmAndMaybeDrain (s : TaskState) : Bool × Bool × TaskState :=
  (s.timerEnabled, !s.timerEnabled && s.timerFired,
    { s with timerEnabled := false, timerFired := s.timerEnabled && s.timerFired })

namespace TaskState

/-- Embeds `Task.blockWithDeadlineFromSampledClock`: arm `t.blockingTimer` at
the deadline, `block` on C and the timer channel, then disarm the timer and
drain its channel only when the disarm observes a no-longer-enabled setting. -/
def blockWithDeadlineFromSampledClock (s : TaskState) (arriveC : Nat)
    (intrArrives timerFires : Bool) (wake : WakeCause) : BlockRes × TaskState :=
  let sArmed := { s with timerEnabled := true }
  let r := sArmed.block true arriveC intrArrives timerFires wake
  (r.1, (timerDisarmAndMaybeDrain r.2).2.2)

/-- Embeds `Task.BlockWithDeadlineFrom`.  Without a deadline it is a bare
`block`.  With a deadline it uses the sampled-clock path when the clock is
sampled; otherwise it creates a one-shot timer on the generic clock posting to
`t.blockingTimerChan` and applies the identical arm / block / disarm-and-drain
discipline, which this embedding shares with the sampled path. -/
def BlockWithDeadlineFrom (s : TaskState) (isSampled haveDeadline : Bool)
    (arriveC : Nat) (intrArrives timerFires : Bool) (wake : WakeCause) :
    BlockRes × TaskState :=
  if !haveDeadline then s.block false arriveC intrArrives false wake
  else if isSampled then
    s.blockWithDeadlineFromSampledClock arriveC intrArrives timerFires wake
  else
    s.blockWithDeadlineFromSampledClock arriveC intrArrives timerFires wake

/-- Embeds `Task.BlockWithTimeout(C, haveTimeout, timeout)`.  `tStart` and
`tEnd` are the two monotonic-clock readings (`clock.Now()` at entry and after
the block).  Without a timeout the input timeout is returned unchanged
alongside `t.block(C, nil)`.  With a timeout, a deadline of
`tStart + timeout` is used; on ETIMEDOUT the remaining duration is exactly 0,
otherwise it is `timeout - (tEnd - tStart)` clamped below at 0. -/
def BlockWithTimeout (s : TaskState) (haveTimeout : Bool) (timeout : Int)
    (tStart tEnd : Int) (arriveC : Nat) (intrArrives timerFires : Bool)
    (wake : WakeCause) : (Int × BlockRes) × TaskState :=
  if !haveTimeout then
    let r := s.block false arriveC intrArrives false wake
    ((timeout, r.1), r.2)
  else
    let r := s.blockWithDeadlineFromSampledClock arriveC intrArrives timerFires wake
    if r.1 = some .timedOut then ((0, r.1), r.2)
    else
      let remainingTimeout := timeout - (tEnd - tStart)
      ((max remainingTimeout 0, r.1), r.2)

end TaskState

/-- A quiescent task state: nothing pending, address space active, running. -/
def idleTask : TaskState :=
  ⟨0, false, false, false, true, .runningSys, 0, 0, 0⟩

/-- Task state with an interrupt pending and an otherwise empty environment. -/
def interruptedTask : TaskState :=
  ⟨0, true, false, false, true, .runningSys, 0, 0, 0⟩

/-- Task state with an interrupt pending and a stale value already in the
blocking-timer channel. -/
def interruptedStaleTimerTask : TaskState :=
  ⟨0, true, false, true, true, .runningSys, 0, 0, 0⟩

/-!
PID-namespace data model from pkg/sentry/kernel/threads.go.

Task and thread-group pointers are embedded as `Nat` identities, with `0`
playing the role of the Go nil task pointer (never a map key).  Thread IDs are
`Int` (Go's int32); Go map lookups that default to the zero value become
`Option.getD 0`.  The immutable task-to-group and group-to-leader
relationships live in a `TaskEnv`.  The global `lastPIDNSID` counter is
threaded explicitly: constructors take the current counter value and return
the updated one.
-/

/-- The nsfs inode handle installed by `InitInode`, modelled from the spec as
an opaque handle carrying the namespace type tag (`nsfs.NewInode` itself is
outside the embedded sources). -/
structure Inode where
  nsTypeTag : String
  deriving DecidableEq, Repr

/-- Immutable task / thread-group relationships: each task's owning thread
group (`Task.tg`, immutable after attach) and each group's leader
(`threadGroupNode.leader`, fixed once visible). -/
structure TaskEnv where
  tgOf : Nat → Nat
  leaderOf : Nat → Nat

/-- Well-formedness of the environment: a group's leader is a member of that
group, so the leader's owning group is the group itself. -/
def TaskEnv.wf (env : TaskEnv) : Prop :=
  ∀ g, env.tgOf (env.leaderOf g) = g

/-- Embeds `PIDNamespace`: the bimaps between thread IDs and tasks / thread
groups / sessions / process groups, the allocation watermark `last`, the
`exiting` flag, the immutable owner / parent / userns / id references and the
installed nsfs inode. -/
structure PIDNamespace where
  ownerId : Option Nat
  parentId : Option Nat
  usernsId : Nat
  id : Nat
  last : Int
  tasks : Int → Option Nat
  tids : Nat → Option Int
  tgids : Nat → Option Int
  sessions : Int → Option Nat
  sids : Nat → Option Int
  processGroups : Int → Option Nat
  pgids : Nat → Option Int
  exiting : Bool
  inode : Option Inode

/-- Embeds `newPIDNamespace`: a fresh namespace with all maps empty, watermark
zero, `id` drawn from the global counter (`lastPIDNSID.Add(1)`, threaded here
as an explicit value), and no inode yet. -/
def newPIDNamespace (ownerId parentId : Option Nat) (usernsId : Nat)
    (lastPIDNSID : Nat) : PIDNamespace × Nat :=
  (⟨ownerId, parentId, usernsId, lastPIDNSID + 1, 0,
    fun _ => none, fun _ => none, fun _ => none, fun _ => none,
    fun _ => none, fun _ => none, fun _ => none, false, none⟩,
   lastPIDNSID + 1)

/-- Embeds `NewRootPIDNamespace`: owner and parent are nil at creation. -/
def NewRootPIDNamespace (usernsId : Nat) (lastPIDNSID : Nat) :
    PIDNamespace × Nat :=
  newPIDNamespace none none usernsId lastPIDNSID

namespace PIDNamespace

/-- Embeds the `Type()` method of `PIDNamespace`, which returns the literal
string "pid". -/
def typeString (_ : PIDNamespace) : String := "pid"

/-- Embeds `InitInode`: installs the nsfs inode for this namespace, whose
type tag is the namespace's `Type()`. -/
def InitInode (ns : PIDNamespace) : PIDNamespace :=
  { ns with inode := some ⟨ns.typeString⟩ }

/-- Embeds `NewChild`: a fresh namespace owned by the same TaskSet, whose
parent is the receiver, with the given user-namespace authority, and with its
inode installed. -/
def NewChild (ns : PIDNamespace) (usernsId : Nat) (lastPIDNSID : Nat) :
    PIDNamespace × Nat :=
  let p := newPIDNamespace ns.ownerId (some ns.id) usernsId lastPIDNSID
  (p.1.InitInode, p.2)

/-- Embeds `TaskWithID`: the Go map lookup `ns.tasks[tid]`, nil (`none`) when
no task has that TID. -/
def TaskWithID (ns : PIDNamespace) (tid : Int) : Option Nat :=
  ns.tasks tid

/-- Embeds `IDOfTask`: the Go map lookup `ns.tids[t]`, defaulting to the zero
ThreadID when `t` is not a key (including the nil task, which is never a key). -/
def IDOfTask (ns : PIDNamespace) (t : Nat) : Int :=
  (ns.tids t).getD 0

/-- Embeds `IDOfThreadGroup`: the Go map lookup `ns.tgids[tg]`, defaulting to
the zero ThreadID. -/
def IDOfThreadGroup (ns : PIDNamespace) (tg : Nat) : Int :=
  (ns.tgids tg).getD 0

/-- Embeds `ThreadGroupWithID`: nil when no task has the TID, nil when the
task is not its thread group's leader, and otherwise the task's thread group. -/
def ThreadGroupWithID (env : TaskEnv) (ns : PIDNamespace) (tid : Int) :
    Option Nat :=
  match ns.tasks tid with
  | none => none
  | some t => if env.leaderOf (env.tgOf t) = t then some (env.tgOf t) else none

end PIDNamespace

/-- The TID / task / thread-group bimap invariant of a PID namespace: `tids`
and `tasks` are mutual inverses, every assigned TID is non-zero, the nil task
is never a key, and `tgids` agrees with `tids` on each visible group's leader
with a non-zero TID. -/
def nsInvariant (env : TaskEnv) (ns : PIDNamespace) : Prop :=
  (∀ t tid, ns.tids t = some tid ↔ ns.tasks tid = some t) ∧
  (∀ t tid, ns.tids t = some tid → tid ≠ 0) ∧
  ns.tids 0 = none ∧
  (∀ tg tid, ns.tgids tg = some tid → tid ≠ 0) ∧
  (∀ tg tid, ns.tgids tg = some tid → ns.tids (env.leaderOf tg) = some tid)

/-- Modelled from the spec: task admission (in the task-creation machinery
outside the embedded sources) makes a task visible in a namespace under a
freshly allocated non-zero TID, updating both directions of the bimap and,
when the task leads its thread group, registering the group under the same
TID. -/
def addTask (env : TaskEnv) (ns : PIDNamespace) (t : Nat) (tid : Int) :
    PIDNamespace :=
  { ns with
    tasks := fun j => if j = tid then some t else ns.tasks j,
    tids := fun u => if u = t then some tid else ns.tids u,
    tgids := fun g =>
      if env.leaderOf (env.tgOf t) = t ∧ g = env.tgOf t then some tid
      else ns.tgids g,
    last := max ns.last tid }

/-- Modelled from the spec: reaping removes a task from both directions of the
bimap and, when the reaped task led its thread group, removes the group's
registration as well. -/
def removeTask (env : TaskEnv) (ns : PIDNamespace) (t : Nat) : PIDNamespace :=
  { ns with
    tasks := fun j => if ns.tasks j = some t then none else ns.tasks j,
    tids := fun u => if u = t then none else ns.tids u,
    tgids := fun g =>
      if env.leaderOf (env.tgOf t) = t ∧ g = env.tgOf t then none
      else ns.tgids g }

/-- Identity environment: every task is the leader of its own singleton
thread group. -/
def envId : TaskEnv := ⟨fun g => g, fun g => g⟩

/-- A freshly constructed, empty PID namespace. -/
def emptyNs : PIDNamespace := (newPIDNamespace none none 0 0).1

/-- C1: For `BlockWithTimeout(C, true, timeout)`, a Timeout (ETIMEDOUT) return
carries a remaining duration of exactly 0; every other return carries
`timeout - (tEnd - tStart)` clamped below at zero, where `tStart`, `tEnd` are
the entry and exit monotonic-clock readings; the remaining duration is never
negative even for adversarial clock readings. -/
theorem blockWithTimeout_remaining (s : TaskState) (timeout tStart tEnd : Int)
    (arriveC : Nat) (intrArrives timerFires : Bool) (wake : WakeCause) :
    ((s.BlockWithTimeout true timeout tStart tEnd arriveC intrArrives timerFires wake).1.2
        = some .timedOut →
      (s.BlockWithTimeout true timeout tStart tEnd arriveC intrArrives timerFires wake).1.1
        = 0) ∧
    ((s.BlockWithTimeout true timeout tStart tEnd arriveC intrArrives timerFires wake).1.2
        ≠ some .timedOut →
      (s.BlockWithTimeout true timeout tStart tEnd arriveC intrArrives timerFires wake).1.1
        = max (timeout - (tEnd - tStart)) 0) ∧
    0 ≤ (s.BlockWithTimeout true timeout tStart tEnd arriveC intrArrives
      timerFires wake).1.1 := by
  unfold TaskState.BlockWithTimeout
  simp only [Bool.not_true, Bool.false_eq_true, if_false]
  split
  · refine ⟨fun _ => rfl, fun hne => absurd ?_ hne, le_refl 0⟩
    assumption
  · refine ⟨fun heq => absurd heq ?_, fun _ => rfl, le_max_right _ 0⟩
    assumption

/-- C1 witness: a concrete timed-out run returns remaining 0, and a concrete
interrupted run returns the clamped remaining. -/
theorem blockWithTimeout_remaining_witness :
    (idleTask.BlockWithTimeout true 20 0 25 0 false true .timer).1.1 = 0 ∧
    (interruptedTask.BlockWithTimeout true 10 0 1 0 false false .interrupt).1.1
      = max (10 - (1 - 0)) 0 :=
  ⟨(blockWithTimeout_remaining idleTask 20 0 25 0 false true .timer).1 (by decide),
   (blockWithTimeout_remaining interruptedTask 10 0 1 0 false false .interrupt).2.1
     (by decide)⟩

/-- C2 counterexample: with `haveTimeout = true`, an interrupt that wins the
select before the deadline yields a non-zero remaining duration (here 9)
together with the non-nil Interrupted error, refuting the claim that a
non-zero remaining implies a nil error. -/
theorem blockWithTimeout_nonzero_remaining_cex :
    ¬ ((interruptedTask.BlockWithTimeout true 10 0 1 0 false false .interrupt).1.1 ≠ 0 →
      (interruptedTask.BlockWithTimeout true 10 0 1 0 false false .interrupt).1.2
        = none) := by
  decide

/-- C2 amended: for every `BlockWithTimeout` call (with a valid wake when no
timer is supplied), a non-zero remaining duration implies the error is not
Timeout, and whenever the error is nil exactly one value was consumed from C. -/
theorem blockWithTimeout_nonzero_remaining (s : TaskState) (haveTimeout : Bool)
    (timeout tStart tEnd : Int) (arriveC : Nat) (intrArrives timerFires : Bool)
    (wake : WakeCause)
    (hv : haveTimeout = false →
      wakeValid s false arriveC intrArrives false wake = true) :
    ((s.BlockWithTimeout haveTimeout timeout tStart tEnd arriveC intrArrives
        timerFires wake).1.1 ≠ 0 →
      (s.BlockWithTimeout haveTimeout timeout tStart tEnd arriveC intrArrives
        timerFires wake).1.2 ≠ some .timedOut) ∧
    ((s.BlockWithTimeout haveTimeout timeout tStart tEnd arriveC intrArrives
        timerFires wake).1.2 = none →
      (s.BlockWithTimeout haveTimeout timeout tStart tEnd arriveC intrArrives
        timerFires wake).2.consumedC = s.consumedC + 1) := by
  by_cases h : 0 < s.eventChan <;> cases wake <;> cases haveTimeout <;>
    simp_all [TaskState.BlockWithTimeout, TaskState.blockWithDeadlineFromSampledClock,
      timerDisarmAndMaybeDrain, TaskState.block, wakeValid, TaskState.prepareSleep,
      TaskState.completeSleep, TaskState.interruptSelf]

/-- C2 amended witness: a concrete event-consuming run with a timeout. -/
theorem blockWithTimeout_nonzero_remaining_witness :
    (idleTask.BlockWithTimeout true 10 0 1 1 false false .event).2.consumedC
      = idleTask.consumedC + 1 :=
  (blockWithTimeout_nonzero_remaining idleTask true 10 0 1 1 false false .event
    (by intro h; cases h)).2 (by decide)

/-- C3 counterexample: in a run of the sampled-clock deadline path where the
timer fires during the wait but the event wake wins the select, the disarm
observes a no-longer-armed timer (the inner block left `timerEnabled = false`)
with a value still in the channel, and the code drains that value rather than
leaving the channel as-is — refuting the claim that the channel is drained
only when the disarm observes a still-armed state. -/
theorem timer_hygiene_cex :
    ¬ ((({ idleTask with timerEnabled := true } : TaskState).block
          true 1 false true .event).2.timerEnabled = false →
      (idleTask.blockWithDeadlineFromSampledClock 1 false true .event).2.timerFired
        = (({ idleTask with timerEnabled := true } : TaskState).block
            true 1 false true .event).2.timerFired) := by
  decide

/-- C3 amended: after every deadline-taking Block call the supplied timer is
disarmed, and the expiry channel is drained only if the disarm observes a
no-longer-armed (already fired) state; if the disarm observes a still-armed
state, nothing is drained and the channel is left as-is. -/
theorem timer_hygiene (s sPost : TaskState) (arriveC : Nat)
    (intrArrives timerFires : Bool) (wake : WakeCause) :
    ((timerDisarmAndMaybeDrain sPost).2.2.timerEnabled = false) ∧
    ((timerDisarmAndMaybeDrain sPost).2.1 = true →
      (timerDisarmAndMaybeDrain sPost).1 = false) ∧
    ((timerDisarmAndMaybeDrain sPost).1 = true →
      (timerDisarmAndMaybeDrain sPost).2.1 = false ∧
      (timerDisarmAndMaybeDrain sPost).2.2.timerFired = sPost.timerFired) ∧
    ((s.blockWithDeadlineFromSampledClock arriveC intrArrives timerFires
      wake).2.timerEnabled = false) ∧
    (∀ isSampled : Bool,
      (s.BlockWithDeadlineFrom isSampled true arriveC intrArrives timerFires
        wake).2.timerEnabled = false) := by
  refine ⟨rfl, ?_, ?_, rfl, ?_⟩
  · by_cases he : sPost.timerEnabled <;> simp [timerDisarmAndMaybeDrain, he]
  · by_cases hf : sPost.timerFired <;>
      simp_all [timerDisarmAndMaybeDrain]
  · intro isSampled
    cases isSampled <;> rfl

/-- C3 amended witness: concrete disarm of a fired timer drains the channel,
and a concrete deadline call ends with the timer disarmed. -/
theorem timer_hygiene_witness :
    (timerDisarmAndMaybeDrain ({ idleTask with timerFired := true })).1 = false ∧
    (idleTask.blockWithDeadlineFromSampledClock 0 true false .interrupt).2.timerEnabled
      = false :=
  ⟨(timer_hygiene idleTask { idleTask with timerFired := true } 0 true false
      .interrupt).2.1 (by decide),
   (timer_hygiene idleTask idleTask 0 true false .interrupt).2.2.2.1⟩

/-- C4: when C already holds a value at entry, every block call returns nil
immediately, consuming exactly one value from C, with the address-space
activation, goroutine-state accounting, pending interrupt, scheduler-yield
count and watchdog-touch count all untouched. -/
theorem block_fast_path (s : TaskState) (hasTimer : Bool) (arriveC : Nat)
    (intrArrives timerFires : Bool) (wake : WakeCause) (h : 0 < s.eventChan) :
    s.block hasTimer arriveC intrArrives timerFires wake =
      (none, { s with eventChan := s.eventChan - 1, consumedC := s.consumedC + 1 }) ∧
    (s.block hasTimer arriveC intrArrives timerFires wake).2.addrSpaceActive
      = s.addrSpaceActive ∧
    (s.block hasTimer arriveC intrArrives timerFires wake).2.gostate = s.gostate ∧
    (s.block hasTimer arriveC intrArrives timerFires wake).2.interruptPending
      = s.interruptPending ∧
    (s.block hasTimer arriveC intrArrives timerFires wake).2.goschedCount
      = s.goschedCount ∧
    (s.block hasTimer arriveC intrArrives timerFires wake).2.touchGostateCount
      = s.touchGostateCount ∧
    s.Block arriveC intrArrives wake =
      (none, { s with eventChan := s.eventChan - 1, consumedC := s.consumedC + 1 }) := by
  have hb : ∀ ht tf : Bool, s.block ht arriveC intrArrives tf wake =
      (none, { s with eventChan := s.eventChan - 1, consumedC := s.consumedC + 1 }) := by
    intro ht tf
    unfold TaskState.block
    rw [if_pos h]
  refine ⟨hb _ _, ?_, ?_, ?_, ?_, ?_, hb false false⟩ <;>
    rw [hb hasTimer timerFires]

/-- C4 witness: the fast path at a concrete state holding both an event and a
pending interrupt returns nil and leaves the interrupt pending. -/
theorem block_fast_path_witness :
    ({ interruptedTask with eventChan := 1 } : TaskState).block false 0 false
        false .event =
      (none, ⟨0, true, false, false, true, .runningSys, 1, 0, 0⟩) :=
  (block_fast_path { interruptedTask with eventChan := 1 } false 0 false false
    .event (by decide)).1

/-- C5 counterexample: with an interrupt pending, an empty C (so the fast path
cannot fire) and a stale value in the blocking-timer channel, a valid run of
the deadline-taking block returns Timeout rather than Interrupted — refuting
the claim that after an interrupt every Block call returns Interrupted unless
the fast path fires first. -/
theorem block_interrupt_semantics_cex :
    interruptedStaleTimerTask.interrupted = true ∧
    interruptedStaleTimerTask.eventChan = 0 ∧
    wakeValid { interruptedStaleTimerTask with timerEnabled := true } true 0
      false false .timer = true ∧
    (interruptedStaleTimerTask.BlockWithDeadlineFrom true true 0 false false
      .timer).1 = some .timedOut := by
  decide

/-- C5 amended: a block call returns Interrupted exactly when the fast path
does not fire and the select is won by the interrupt channel; a pending
interrupt makes the interrupt wake valid; and on that path the interrupt slot
is re-posted via `interruptSelf` (so `Interrupted()` is true afterwards) and
no value is consumed from C.  Past the fast path, the select may instead be
won by a concurrently ready event or timer channel. -/
theorem block_interrupt_semantics (s : TaskState) (hasTimer : Bool)
    (arriveC : Nat) (intrArrives timerFires : Bool) (wake : WakeCause) :
    ((s.block hasTimer arriveC intrArrives timerFires wake).1 = some .interrupted ↔
      s.eventChan = 0 ∧ wake = .interrupt) ∧
    (s.interruptPending = true →
      wakeValid s hasTimer arriveC intrArrives timerFires .interrupt = true) ∧
    (s.eventChan = 0 → wake = .interrupt →
      (s.block hasTimer arriveC intrArrives timerFires wake).2.interruptPending
        = true ∧
      (s.block hasTimer arriveC intrArrives timerFires wake).2.consumedC
        = s.consumedC ∧
      ((s.block hasTimer arriveC intrArrives timerFires wake).2.Interrupted).1
        = true) := by
  by_cases h : 0 < s.eventChan <;>
    cases wake <;>
    simp_all [TaskState.block, wakeValid, TaskState.prepareSleep,
      TaskState.completeSleep, TaskState.interruptSelf, TaskState.Interrupted,
      TaskState.interrupted, Nat.pos_iff_ne_zero]

/-- C5 amended witness: a concrete interrupt-woken run returns Interrupted,
leaves the slot re-posted, and consumes nothing from C. -/
theorem block_interrupt_semantics_witness :
    (interruptedTask.block false 0 false false .interrupt).2.interruptPending
      = true ∧
    (interruptedTask.block false 0 false false .interrupt).2.consumedC
      = interruptedTask.consumedC :=
  ⟨((block_interrupt_semantics interruptedTask false 0 false false
      .interrupt).2.2 rfl rfl).1,
   ((block_interrupt_semantics interruptedTask false 0 false false
      .interrupt).2.2 rfl rfl).2.1⟩

/-- C9: a balanced `UninterruptibleSleepStart(d)` / `UninterruptibleSleepFinish(d)`
pair restores exactly the prior state; Start deactivates the address space iff
`d` is true, accounts the task as blocked-uninterruptible, and changes nothing
else. -/
theorem uninterruptibleSleep_roundtrip (s : TaskState) (d : Bool)
    (hg : s.gostate = .runningSys) (ha : d = true → s.addrSpaceActive = true) :
    (s.UninterruptibleSleepStart d).UninterruptibleSleepFinish d = s ∧
    (s.UninterruptibleSleepStart d).gostate = .blockedUninterruptible ∧
    (s.UninterruptibleSleepStart d).addrSpaceActive
      = (if d then false else s.addrSpaceActive) ∧
    (s.UninterruptibleSleepStart d).eventChan = s.eventChan ∧
    (s.UninterruptibleSleepStart d).interruptPending = s.interruptPending ∧
    (s.UninterruptibleSleepStart d).timerEnabled = s.timerEnabled ∧
    (s.UninterruptibleSleepStart d).timerFired = s.timerFired ∧
    (s.UninterruptibleSleepStart d).consumedC = s.consumedC ∧
    (s.UninterruptibleSleepStart d).goschedCount = s.goschedCount ∧
    (s.UninterruptibleSleepStart d).touchGostateCount = s.touchGostateCount := by
  cases s
  cases d <;>
    simp_all [TaskState.UninterruptibleSleepStart, TaskState.UninterruptibleSleepFinish]

/-- C9 witness: the round trip at a concrete active running state, for both
values of the deactivate flag. -/
theorem uninterruptibleSleep_roundtrip_witness :
    (idleTask.UninterruptibleSleepStart true).UninterruptibleSleepFinish true
      = idleTask ∧
    (idleTask.UninterruptibleSleepStart false).UninterruptibleSleepFinish false
      = idleTask :=
  ⟨(uninterruptibleSleep_roundtrip idleTask true rfl (fun _ => rfl)).1,
   (uninterruptibleSleep_roundtrip idleTask false rfl (by intro h; cases h)).1⟩

/-- C10: `Interrupted()` returns exactly the occupancy of the interrupt slot;
when an interrupt is pending it changes nothing, otherwise its only effect is
touching the watchdog liveness timestamp; in neither case is the interrupt
slot drained. -/
theorem interrupted_touch_frame (s : TaskState) :
    (s.Interrupted.1 = s.interruptPending) ∧
    (s.interruptPending = true → s.Interrupted.2 = s) ∧
    (s.interruptPending = false →
      s.Interrupted.2 = { s with touchGostateCount := s.touchGostateCount + 1 }) ∧
    (s.Interrupted.2.interruptPending = s.interruptPending) ∧
    (s.Interrupted.2.eventChan = s.eventChan) := by
  by_cases h : s.interruptPending <;>
    simp_all [TaskState.Interrupted, TaskState.interrupted]

/-- C10 witness: concrete states on both paths. -/
theorem interrupted_touch_frame_witness :
    interruptedTask.Interrupted.2 = interruptedTask ∧
    idleTask.Interrupted.2
      = { idleTask with touchGostateCount := idleTask.touchGostateCount + 1 } :=
  ⟨(interrupted_touch_frame interruptedTask).2.1 rfl,
   (interrupted_touch_frame idleTask).2.2.1 rfl⟩

theorem nsInvariant_new (env : TaskEnv) (o p : Option Nat) (u c : Nat) :
    nsInvariant env (newPIDNamespace o p u c).1 := by
  refine ⟨?_, ?_, rfl, ?_, ?_⟩ <;> intro a b <;> simp [newPIDNamespace]

theorem nsInvariant_addTask (env : TaskEnv) (ns : PIDNamespace) (t : Nat)
    (tid : Int) (henv : env.wf) (hinv : nsInvariant env ns)
    (ht0 : t ≠ 0) (htid : tid ≠ 0)
    (htfresh : ns.tids t = none) (hidfresh : ns.tasks tid = none)
    (htgfresh : env.leaderOf (env.tgOf t) = t → ns.tgids (env.tgOf t) = none) :
    nsInvariant env (addTask env ns t tid) := by
  obtain ⟨hbij, hnz, hnil, htgnz, htgl⟩ := hinv
  refine ⟨?_, ?_, ?_, ?_, ?_⟩
  · intro u j
    show (if u = t then some tid else ns.tids u) = some j ↔
      (if j = tid then some t else ns.tasks j) = some u
    by_cases hu : u = t
    · subst hu
      rw [if_pos rfl]
      by_cases hj : j = tid
      · subst hj
        rw [if_pos rfl]
        simp
      · rw [if_neg hj]
        constructor
        · intro h
          exact absurd (Option.some.inj h).symm hj
        · intro h
          have hc := (hbij u j).mpr h
          rw [htfresh] at hc
          cases hc
    · rw [if_neg hu]
      by_cases hj : j = tid
      · subst hj
        rw [if_pos rfl]
        constructor
        · intro h
          have hc := (hbij u j).mp h
          rw [hidfresh] at hc
          cases hc
        · intro h
          exact absurd (Option.some.inj h).symm hu
      · rw [if_neg hj]
        exact hbij u j
  · intro u j
    show (if u = t then some tid else ns.tids u) = some j → j ≠ 0
    by_cases hu : u = t
    · rw [if_pos hu]
      intro h
      rw [← Option.some.inj h]
      exact htid
    · rw [if_neg hu]
      exact hnz u j
  · show (if (0 : Nat) = t then some tid else ns.tids 0) = none
    rw [if_neg fun h => ht0 h.symm]
    exact hnil
  · intro tg j
    show (if env.leaderOf (env.tgOf t) = t ∧ tg = env.tgOf t then some tid
      else ns.tgids tg) = some j → j ≠ 0
    by_cases hc : env.leaderOf (env.tgOf t) = t ∧ tg = env.tgOf t
    · rw [if_pos hc]
      intro h
      rw [← Option.some.inj h]
      exact htid
    · rw [if_neg hc]
      exact htgnz tg j
  · intro tg j
    show (if env.leaderOf (env.tgOf t) = t ∧ tg = env.tgOf t then some tid
      else ns.tgids tg) = some j →
      (if env.leaderOf tg = t then some tid else ns.tids (env.leaderOf tg))
        = some j
    by_cases hc : env.leaderOf (env.tgOf t) = t ∧ tg = env.tgOf t
    · rw [if_pos hc]
      intro h
      have hlt : env.leaderOf tg = t := by
        rw [hc.2]
        exact hc.1
      rw [if_pos hlt]
      exact h
    · rw [if_neg hc]
      intro h
      have hold := htgl tg j h
      have hne : env.leaderOf tg ≠ t := by
        intro he
        have hh : env.tgOf t = tg := by
          have hw := henv tg
          rw [he] at hw
          exact hw
        refine hc ⟨?_, hh.symm⟩
        rw [hh]
        exact he
      rw [if_neg hne]
      exact hold

theorem nsInvariant_removeTask (env : TaskEnv) (ns : PIDNamespace) (t : Nat)
    (henv : env.wf) (hinv : nsInvariant env ns) :
    nsInvariant env (removeTask env ns t) := by
  obtain ⟨hbij, hnz, hnil, htgnz, htgl⟩ := hinv
  refine ⟨?_, ?_, ?_, ?_, ?_⟩
  · intro u j
    show (if u = t then none else ns.tids u) = some j ↔
      (if ns.tasks j = some t then none else ns.tasks j) = some u
    by_cases hu : u = t
    · rw [if_pos hu]
      constructor
      · intro h
        cases h
      · intro h
        by_cases hc : ns.tasks j = some t
        · rw [if_pos hc] at h
          cases h
        · rw [if_neg hc] at h
          rw [hu] at h
          exact absurd h hc
    · rw [if_neg hu]
      by_cases hc : ns.tasks j = some t
      · rw [if_pos hc]
        constructor
        · intro h
          have hc2 := (hbij u j).mp h
          rw [hc] at hc2
          exact absurd (Option.some.inj hc2).symm hu
        · intro h
          cases h
      · rw [if_neg hc]
        exact hbij u j
  · intro u j
    show (if u = t then none else ns.tids u) = some j → j ≠ 0
    by_cases hu : u = t
    · rw [if_pos hu]
      intro h
      cases h
    · rw [if_neg hu]
      exact hnz u j
  · show (if (0 : Nat) = t then none else ns.tids 0) = none
    by_cases h0 : (0 : Nat) = t
    · rw [if_pos h0]
    · rw [if_neg h0]
      exact hnil
  · intro tg j
    show (if env.leaderOf (env.tgOf t) = t ∧ tg = env.tgOf t then none
      else ns.tgids tg) = some j → j ≠ 0
    by_cases hc : env.leaderOf (env.tgOf t) = t ∧ tg = env.tgOf t
    · rw [if_pos hc]
      intro h
      cases h
    · rw [if_neg hc]
      exact htgnz tg j
  · intro tg j
    show (if env.leaderOf (env.tgOf t) = t ∧ tg = env.tgOf t then none
      else ns.tgids tg) = some j →
      (if env.leaderOf tg = t then none else ns.tids (env.leaderOf tg))
        = some j
    by_cases hc : env.leaderOf (env.tgOf t) = t ∧ tg = env.tgOf t
    · rw [if_pos hc]
      intro h
      cases h
    · rw [if_neg hc]
      intro h
      have hold := htgl tg j h
      have hne : env.leaderOf tg ≠ t := by
        intro he
        have hh : env.tgOf t = tg := by
          have hw := henv tg
          rw [he] at hw
          exact hw
        refine hc ⟨?_, hh.symm⟩
        rw [hh]
        exact he
      rw [if_neg hne]
      exact hold

/-- C6: in every PID namespace the `tids` and `tasks` maps are mutual
inverses with non-zero TIDs (so `tids[t]` is non-zero exactly when `t` is a
value of `tasks`), `tgids` agrees with `tids` on each visible thread group's
leader, and the operations on the namespace — fresh construction, the
spec-modelled task admission, and the spec-modelled reaping — preserve this
invariant. -/
theorem pidns_bimap_invariant (env : TaskEnv) (ns : PIDNamespace) (t : Nat)
    (tid : Int) (o p : Option Nat) (u c : Nat)
    (henv : env.wf) (hinv : nsInvariant env ns)
    (ht0 : t ≠ 0) (htid : tid ≠ 0)
    (htfresh : ns.tids t = none) (hidfresh : ns.tasks tid = none)
    (htgfresh : env.leaderOf (env.tgOf t) = t → ns.tgids (env.tgOf t) = none) :
    nsInvariant env (newPIDNamespace o p u c).1 ∧
    (∀ x, ns.IDOfTask x ≠ 0 ↔ ∃ i, ns.tasks i = some x) ∧
    (∀ tg j, ns.tgids tg = some j →
      ns.IDOfThreadGroup tg = ns.IDOfTask (env.leaderOf tg)) ∧
    nsInvariant env (addTask env ns t tid) ∧
    nsInvariant env (removeTask env ns t) := by
  refine ⟨nsInvariant_new env o p u c, ?_, ?_,
    nsInvariant_addTask env ns t tid henv hinv ht0 htid htfresh hidfresh htgfresh,
    nsInvariant_removeTask env ns t henv hinv⟩
  · intro x
    obtain ⟨hbij, hnz, hnil, htgnz, htgl⟩ := hinv
    unfold PIDNamespace.IDOfTask
    cases hx : ns.tids x with
    | none =>
        simp only [Option.getD_none, ne_eq, not_true_eq_false, false_iff,
          not_exists]
        intro i hi
        have hc := (hbij x i).mpr hi
        rw [hx] at hc
        cases hc
    | some j =>
        exact iff_of_true (hnz x j hx) ⟨j, (hbij x j).mp hx⟩
  · intro tg j h
    unfold PIDNamespace.IDOfThreadGroup PIDNamespace.IDOfTask
    rw [h, hinv.2.2.2.2 tg j h]

/-- C6 witness: the invariant holds after admitting task 1 under TID 5 into a
fresh namespace, and after reaping from it. -/
theorem pidns_bimap_invariant_witness :
    nsInvariant envId (addTask envId emptyNs 1 5) ∧
    nsInvariant envId (removeTask envId emptyNs 1) :=
  ⟨(pidns_bimap_invariant envId emptyNs 1 5 none none 0 0 (fun _ => rfl)
      (nsInvariant_new envId none none 0 0) (by decide) (by decide) rfl rfl
      (fun _ => rfl)).2.2.2.1,
   (pidns_bimap_invariant envId emptyNs 1 5 none none 0 0 (fun _ => rfl)
      (nsInvariant_new envId none none 0 0) (by decide) (by decide) rfl rfl
      (fun _ => rfl)).2.2.2.2⟩

/-- C7: the PID-namespace lookups are total and signal absence with zero
values: `TaskWithID` is nil when no task has the TID; `IDOfTask` is 0 when
the task is not visible, and 0 on the nil task; `IDOfThreadGroup` is 0 when
the group is not visible; `ThreadGroupWithID` is nil both when no task has
the TID and when the task with that TID is not its thread group's leader.
(The lookups are pure functions of the namespace by construction, so none of
them mutates it.) -/
theorem pidns_lookup_absence (env : TaskEnv) (ns : PIDNamespace) (tid : Int)
    (t tg : Nat) (hinv : nsInvariant env ns) :
    (ns.tasks tid = none → ns.TaskWithID tid = none) ∧
    (ns.tids t = none → ns.IDOfTask t = 0) ∧
    ns.IDOfTask 0 = 0 ∧
    (ns.tgids tg = none → ns.IDOfThreadGroup tg = 0) ∧
    (ns.tasks tid = none → PIDNamespace.ThreadGroupWithID env ns tid = none) ∧
    (∀ x, ns.tasks tid = some x → env.leaderOf (env.tgOf x) ≠ x →
      PIDNamespace.ThreadGroupWithID env ns tid = none) := by
  refine ⟨fun h => h, ?_, ?_, ?_, ?_, ?_⟩
  · intro h
    unfold PIDNamespace.IDOfTask
    rw [h]
    rfl
  · unfold PIDNamespace.IDOfTask
    rw [hinv.2.2.1]
    rfl
  · intro h
    unfold PIDNamespace.IDOfThreadGroup
    rw [h]
    rfl
  · intro h
    unfold PIDNamespace.ThreadGroupWithID
    rw [h]
  · intro x hx hne
    unfold PIDNamespace.ThreadGroupWithID
    rw [hx]
    simp [hne]

/-- C7 witness: concrete absent lookups on a fresh namespace all return the
zero value. -/
theorem pidns_lookup_absence_witness :
    PIDNamespace.TaskWithID emptyNs 7 = none ∧
    PIDNamespace.IDOfTask emptyNs 3 = 0 ∧
    PIDNamespace.IDOfThreadGroup emptyNs 2 = 0 :=
  ⟨(pidns_lookup_absence envId emptyNs 7 3 2
      (nsInvariant_new envId none none 0 0)).1 rfl,
   (pidns_lookup_absence envId emptyNs 7 3 2
      (nsInvariant_new envId none none 0 0)).2.1 rfl,
   (pidns_lookup_absence envId emptyNs 7 3 2
      (nsInvariant_new envId none none 0 0)).2.2.2.1 rfl⟩

/-- C8: `NewChild` returns a fresh, empty PID namespace — all bimaps empty,
TID watermark 0, not exiting — whose parent is the receiver, whose owner is
the receiver's TaskSet, whose user namespace is the given one, whose id is
freshly drawn from the global monotonic counter (hence non-zero and distinct
from every id at most the previous counter value), and with an installed
inode whose namespace type tag is the literal string "pid". -/
theorem pidns_newChild_spec (ns : PIDNamespace) (u c : Nat) :
    (ns.NewChild u c).1.tasks = (fun _ => none) ∧
    (ns.NewChild u c).1.tids = (fun _ => none) ∧
    (ns.NewChild u c).1.tgids = (fun _ => none) ∧
    (ns.NewChild u c).1.sessions = (fun _ => none) ∧
    (ns.NewChild u c).1.sids = (fun _ => none) ∧
    (ns.NewChild u c).1.processGroups = (fun _ => none) ∧
    (ns.NewChild u c).1.pgids = (fun _ => none) ∧
    (ns.NewChild u c).1.last = 0 ∧
    (ns.NewChild u c).1.exiting = false ∧
    (ns.NewChild u c).1.parentId = some ns.id ∧
    (ns.NewChild u c).1.ownerId = ns.ownerId ∧
    (ns.NewChild u c).1.usernsId = u ∧
    (ns.NewChild u c).1.id = c + 1 ∧
    (ns.NewChild u c).1.id ≠ 0 ∧
    (ns.NewChild u c).2 = c + 1 ∧
    (∀ j : Nat, j ≤ c → (ns.NewChild u c).1.id ≠ j) ∧
    (ns.NewChild u c).1.inode = some ⟨"pid"⟩ := by
  refine ⟨rfl, rfl, rfl, rfl, rfl, rfl, rfl, rfl, rfl, rfl, rfl, rfl, rfl,
    Nat.succ_ne_zero c, rfl, ?_, rfl⟩
  intro j hj
  show c + 1 ≠ j
  omega

/-- C8 witness: a concrete child namespace has the expected fresh id, an id
distinct from a smaller previously drawn id, and a "pid"-tagged inode. -/
theorem pidns_newChild_spec_witness :
    (emptyNs.NewChild 4 9).1.id = 9 + 1 ∧
    (emptyNs.NewChild 4 9).1.id ≠ 3 ∧
    (emptyNs.NewChild 4 9).1.inode = some ⟨"pid"⟩ :=
  ⟨(pidns_newChild_spec emptyNs 4 9).2.2.2.2.2.2.2.2.2.2.2.2.1,
   (pidns_newChild_spec emptyNs 4 9).2.2.2.2.2.2.2.2.2.2.2.2.2.2.2.1 3
     (by decide),
   (pidns_newChild_spec emptyNs 4 9).2.2.2.2.2.2.2.2.2.2.2.2.2.2.2.2⟩
